import Mathlib

/-!
Verification of the pandas-api merge compiler of pylegend
(pylegend/core/tds/pandas_api/frames/functions/merge.py).

The development shallowly embeds the class PandasApiMergeFunction.
Frames are modelled by their ordered column lists together with an
identity token (modelling Python object identity) and the opaque
artifacts the merge compiler consumes from them: the compiled query
object (for to_sql) and the rendered program of the frame (for
to_pure).  Machinery that merge.py calls but that lives outside the
provided source (sql_query_helpers, expression renderers, the
call-surface validation layer of the pandas api) is modelled from the
spec, and each such definition is marked in its doc comment.
-/

set_option maxRecDepth 100000

instance exceptDecEq {ε α : Type} [DecidableEq ε] [DecidableEq α] : DecidableEq (Except ε α) :=
  fun x y =>
    match x, y with
    | .ok a, .ok b =>
      if h : a = b then .isTrue (by rw [h]) else .isFalse (by intro hc; cases hc; exact h rfl)
    | .error a, .error b =>
      if h : a = b then .isTrue (by rw [h]) else .isFalse (by intro hc; cases hc; exact h rfl)
    | .ok _, .error _ => .isFalse (by intro hc; cases hc)
    | .error _, .ok _ => .isFalse (by intro hc; cases hc)

/-- A TDS column: a name together with a primitive type name.
Embeds pylegend.core.tds.tds_column.TdsColumn as consumed by merge.py
(get_name, get_type, copy). -/
structure TdsColumn where
  name : String
  ctype : String
deriving DecidableEq, Repr

/-- A TDS frame as seen by the merge compiler: an ordered column list,
an identity token fid modelling Python object identity, and the
rendered program of the frame (what frame.to_pure produces, an opaque
input for the merge emitter). -/
structure Frame where
  fid : Nat
  cols : List TdsColumn
  pureSrc : String
deriving DecidableEq, Repr

/-- The exceptions merge.py raises, abstracted to the error taxonomy
of the spec (section 7).  The concrete Python classes are ValueError /
KeyError / NotImplementedError; the constructors carry the payload the
message carries. -/
inductive MergeError where
  | conflictingKeys
  | unknownKey (k : String)
  | keyLengthMismatch
  | noKeysResolved
  | unsupportedJoinKind (how : String)
  | duplicateColumn
  | sameFrameUnsupported
deriving DecidableEq, Repr

/-- The on / left_on / right_on arguments: a bare column name or a
list of names (the union type str | List[str] in the source). -/
inductive KeysArg where
  | one (s : String)
  | many (ls : List String)
deriving DecidableEq, Repr

/-- A merge specification: the constructor arguments of
PandasApiMergeFunction.  suffixes is always a pair, as the validated
surface guarantees (validate checks it is a 2-tuple). -/
structure MergeSpec where
  base : Frame
  other : Frame
  onArg : Option KeysArg
  left_on : Option KeysArg
  right_on : Option KeysArg
  how : String
  suffixes : String × String
deriving DecidableEq, Repr

/-- Embeds PandasApiMergeFunction.__normalize_keys: None becomes the
empty list, a bare name becomes a one-element list, a list is kept. -/
def normalizeKeys : Option KeysArg → List String
  | none => []
  | some (.one s) => [s]
  | some (.many ls) => ls

/-- Embeds PandasApiMergeFunction.__derive_key_pairs (merge.py lines
97-125).  The Python set intersection in the inference branch iterates
in hash order; the embedding fixes base-frame order, which is the only
deterministic refinement available (spec section 9 flags the hash
order as a defect). -/
def deriveKeyPairs (sp : MergeSpec) : Except MergeError (List (String × String)) :=
  let left_cols := sp.base.cols.map TdsColumn.name
  let right_cols := sp.other.cols.map TdsColumn.name
  if sp.onArg.isSome && (sp.left_on.isSome || sp.right_on.isSome) then
    .error .conflictingKeys
  else if sp.onArg.isSome then
    let on_keys := normalizeKeys sp.onArg
    match on_keys.find? (fun k => !(left_cols.contains k) || !(right_cols.contains k)) with
    | some k => .error (.unknownKey k)
    | none => .ok (on_keys.map (fun k => (k, k)))
  else
    let left_keys := normalizeKeys sp.left_on
    let right_keys := normalizeKeys sp.right_on
    if !left_keys.isEmpty || !right_keys.isEmpty then
      if left_keys.length != right_keys.length then
        .error .keyLengthMismatch
      else
        match left_keys.find? (fun k => !(left_cols.contains k)) with
        | some k => .error (.unknownKey k)
        | none =>
          match right_keys.find? (fun k => !(right_cols.contains k)) with
          | some k => .error (.unknownKey k)
          | none => .ok (left_keys.zip right_keys)
    else
      .ok ((left_cols.filter (fun k => right_cols.contains k)).map (fun k => (k, k)))

/-- The relational join kinds (pylegend.core.sql.metamodel.JoinType). -/
inductive JoinType where
  | INNER
  | LEFT
  | RIGHT
  | FULL
deriving DecidableEq, Repr

/-- Models Python str.lower for ascii strings: each character is
lowered independently.  All recognized join-kind spellings are plain
ascii, where this agrees with Python. -/
def pyLower (s : String) : String :=
  ⟨s.data.map Char.toLower⟩

/-- Embeds PandasApiMergeFunction.__join_type (merge.py lines 140-150). -/
def joinTypeOfHow (how : String) : Except MergeError JoinType :=
  let hl := pyLower how
  if hl = "inner" then .ok .INNER
  else if hl = "left" || hl = "left_outer" then .ok .LEFT
  else if hl = "right" || hl = "right_outer" then .ok .RIGHT
  else if hl = "outer" || hl = "full" || hl = "full_outer" then .ok .FULL
  else .error (.unsupportedJoinKind how)

/-- The set of same-named key names, as the comprehension
set(l for l, r in key_pairs if l == r) used at merge.py lines 177 and
261 (kept as a list; membership is all that is consumed). -/
def sameNameKeys (key_pairs : List (String × String)) : List String :=
  key_pairs.filterMap (fun p => if p.1 = p.2 then some p.1 else none)

/-- The overlap test of merge.py lines 183 and 265: the name occurs in
both frames and is not a same-named key. -/
def overlappingName (sp : MergeSpec) (key_pairs : List (String × String)) (n : String) : Bool :=
  (sp.base.cols.map TdsColumn.name).contains n
    && (sp.other.cols.map TdsColumn.name).contains n
    && !((sameNameKeys key_pairs).contains n)

/-- The merged column list before the duplicate check (merge.py lines
266-283): base columns with the left suffix on overlapping names, then
other-frame columns minus same-named keys with the right suffix on
overlapping names. -/
def mergedColumns (sp : MergeSpec) (key_pairs : List (String × String)) : List TdsColumn :=
  let leftPart := sp.base.cols.map (fun c =>
    if overlappingName sp key_pairs c.name then TdsColumn.mk (c.name ++ sp.suffixes.1) c.ctype
    else c)
  let rightPart := sp.other.cols.filterMap (fun c =>
    if key_pairs.any (fun p => c.name == p.1 && p.1 == p.2) then none
    else if overlappingName sp key_pairs c.name then
      some (TdsColumn.mk (c.name ++ sp.suffixes.2) c.ctype)
    else some c)
  leftPart ++ rightPart

/-- Embeds PandasApiMergeFunction.calculate_columns (merge.py lines
259-289).  The final duplicate test mirrors len(names) != len(set(names))
via List.dedup. -/
def calculateColumns (sp : MergeSpec) : Except MergeError (List TdsColumn) := do
  let key_pairs ← deriveKeyPairs sp
  let result_cols := mergedColumns sp key_pairs
  let names := result_cols.map TdsColumn.name
  if names.length != names.dedup.length then .error .duplicateColumn
  else .ok result_cols

/-- Embeds PandasApiMergeFunction.validate (merge.py lines 291-298):
the suffix shape check is discharged by the type of suffixes; the key
resolution and join kind validations run for their error effect. -/
def validateSpec (sp : MergeSpec) : Except MergeError Bool := do
  let _ ← deriveKeyPairs sp
  let _ ← joinTypeOfHow sp.how
  .ok true

/-- The boolean join predicate tree built by
PandasApiMergeFunction.__build_condition: a literal-true leaf, an
equality between a column of a named row and a column of another named
row, or a conjunction.  The row names record which PandasApiTdsRow the
operand came from (the source hardcodes the names left and right). -/
inductive JoinPred where
  | litTrue
  | eqCols (lrow lcol rrow rcol : String)
  | conj (a b : JoinPred)
deriving DecidableEq, Repr

/-- One iteration of the loop of __build_condition (merge.py lines
134-137): part is the equality of the pair, and expr becomes part when
it was None and the conjunction otherwise. -/
def conditionStep (acc : Option JoinPred) (p : String × String) : Option JoinPred :=
  let part := JoinPred.eqCols "left" p.1 "right" p.2
  some (match acc with
        | none => part
        | some e => JoinPred.conj e part)

/-- The fold of __build_condition (merge.py lines 132-138): expr starts
as None and each pair contributes one equality, conjoined on the left.
The final None case is unreachable because the empty list returns the
literal-true predicate first. -/
def conditionOfPairs (pairs : List (String × String)) : JoinPred :=
  if pairs.isEmpty then .litTrue
  else
    match pairs.foldl conditionStep none with
    | some e => e
    | none => .litTrue

/-- Embeds PandasApiMergeFunction.__build_condition (merge.py lines
128-138): derives the key pairs, then folds them into the predicate.
Both row references are created with the names left and right, also on
the to_pure path (merge.py line 129 runs before lines 242-243 are
consulted; the rows built there with names l and r are unused). -/
def buildCondition (sp : MergeSpec) : Except MergeError JoinPred := do
  let pairs ← deriveKeyPairs sp
  .ok (conditionOfPairs pairs)

/-- Modelled from the spec: the pure-language renderer of the shared
expression classes (to_pure_expression, outside src).  A boolean
literal renders as the keyword, a column access as a dollar variable
followed by the column name, a conjunction with a double ampersand, as
the repository tests show. -/
def renderPureJoinPred : JoinPred → String
  | .litTrue => "true"
  | .eqCols lrow lcol rrow rcol => "$" ++ lrow ++ "." ++ lcol ++ " == $" ++ rrow ++ "." ++ rcol
  | .conj a b => renderPureJoinPred a ++ " && " ++ renderPureJoinPred b

/-- The join-kind string computed inside to_pure (merge.py lines
236-241): a chained conditional with no failure branch, any
unrecognized value falls through to FULL. -/
def pureJoinKind (how : String) : String :=
  if pyLower how = "inner" then "INNER"
  else if pyLower how = "left" || pyLower how = "left_outer" then "LEFT"
  else if pyLower how = "right" || pyLower how = "right_outer" then "RIGHT"
  else "FULL"

/-- Embeds PandasApiMergeFunction.to_pure (merge.py lines 234-250),
rendered with the compact separator policy (separator with a trailing
comma becomes one space, otherwise the empty string), and
generate_pure_lambda wrapping the body in braces with the parameter
list.  The emitted operator is a merge call on the base program. -/
def toPure (sp : MergeSpec) : Except MergeError String := do
  let join_kind := pureJoinKind sp.how
  let cond ← buildCondition sp
  let cond_str := renderPureJoinPred cond
  .ok (sp.base.pureSrc ++ "->merge(" ++ sp.other.pureSrc ++ ", JoinKind." ++ join_kind ++
       ", \x7bl, r | " ++ cond_str ++ "\x7d)")

/-- Relational scalar expressions, as far as the merge emitter builds
them: boolean literals, qualified column references (a list of name
parts), equality and conjunction.  Embeds the metamodel classes used
by to_sql_expression on the predicate of the merge. -/
inductive SqlExpr where
  | boolLit (b : Bool)
  | colRef (parts : List String)
  | eqExpr (a b : SqlExpr)
  | andExpr (a b : SqlExpr)
deriving DecidableEq, Repr

/-- Modelled from the spec: to_sql_expression of the shared expression
classes (outside src) maps the predicate tree onto the metamodel,
referencing each operand as alias.column. -/
def predToSqlExpr : JoinPred → SqlExpr
  | .litTrue => .boolLit true
  | .eqCols lrow lcol rrow rcol => .eqExpr (.colRef [lrow, lcol]) (.colRef [rrow, rcol])
  | .conj a b => .andExpr (predToSqlExpr a) (predToSqlExpr b)

/-- A SingleColumn select item: output alias and source expression. -/
structure SelectItem where
  outName : String
  expr : SqlExpr
deriving DecidableEq, Repr

/-- The relational plan nodes the merge emitter builds, one
constructor per metamodel class it instantiates.  opaqueQuery stands
for the already-compiled query object of an input frame (an arbitrary
sub-plan the merge treats as a value) carrying its output column
names.  querySpec keeps the fields to_sql sets non-trivially; where,
groupBy, having, orderBy, limit and offset are always empty there. -/
inductive SqlNode where
  | opaqueQuery (id : Nat) (cols : List String)
  | querySpec (selectItems : List SelectItem) (distinct : Bool) (from_ : List SqlNode)
  | aliasedRelation (rel : SqlNode) (al : String) (columnNames : List String)
  | tableSubquery (body : SqlNode)
  | joinNode (type_ : JoinType) (left right : SqlNode) (criteria : SqlExpr)
deriving Repr

/-- The compiled query object of a frame (to_sql_query_object), opaque
to the merge compiler; its output columns are the frame columns. -/
def frameQuery (f : Frame) : SqlNode :=
  .opaqueQuery f.fid (f.cols.map TdsColumn.name)

/-- Modelled from the spec: extract_columns_for_subquery of
sql_query_helpers (outside src) returns the output column names of a
compiled query. -/
def extractColumnsForSubquery : SqlNode → List String
  | .opaqueQuery _ cols => cols
  | .querySpec items _ _ => items.map SelectItem.outName
  | _ => []

/-- Modelled from the spec: create_sub_query of sql_query_helpers
(outside src) wraps a query as an aliased subquery relation under the
given alias and re-projects every output column from that alias, so
the result composes as one opaque sub-plan. -/
def createSubQuery (q : SqlNode) (al : String) : SqlNode :=
  let cols := extractColumnsForSubquery q
  .querySpec (cols.map (fun c => SelectItem.mk c (.colRef [al, c]))) false
    [.aliasedRelation (.tableSubquery q) al cols]

/-- The select items of the merge join (merge.py lines 179-205): every
base column projected from the left alias, then every other-frame
column except same-named keys projected from the right alias, each
renamed with the side suffix exactly when its name is a non-key
overlap.  Identifier quoting is an external formatting strategy and is
modelled as the identity. -/
def mergeSelectItems (sp : MergeSpec) (key_pairs : List (String × String)) : List SelectItem :=
  let leftItems := sp.base.cols.map (fun c =>
    let out_name := if overlappingName sp key_pairs c.name then c.name ++ sp.suffixes.1 else c.name
    SelectItem.mk out_name (.colRef ["left", c.name]))
  let rightItems := sp.other.cols.filterMap (fun c =>
    if (sameNameKeys key_pairs).contains c.name then none
    else
      let out_name := if overlappingName sp key_pairs c.name then c.name ++ sp.suffixes.2 else c.name
      some (SelectItem.mk out_name (.colRef ["right", c.name])))
  leftItems ++ rightItems

/-- Embeds PandasApiMergeFunction.to_sql (merge.py lines 152-232),
with the error effects in source order: the condition builder runs key
resolution first (line 157), calculate_columns runs next for its
validation effect (line 172; its value is otherwise unused), and the
join kind is resolved while the join node is constructed (line 211). -/
def toSql (sp : MergeSpec) : Except MergeError SqlNode := do
  let left_query := frameQuery sp.base
  let right_query := frameQuery sp.other
  let cond ← buildCondition sp
  let join_sql_expr := predToSqlExpr cond
  let _result_columns ← calculateColumns sp
  let key_pairs ← deriveKeyPairs sp
  let select_items := mergeSelectItems sp key_pairs
  let jt ← joinTypeOfHow sp.how
  let join_spec := SqlNode.querySpec select_items false
    [SqlNode.joinNode jt
      (.aliasedRelation (.tableSubquery left_query) "left" (extractColumnsForSubquery left_query))
      (.aliasedRelation (.tableSubquery right_query) "right" (extractColumnsForSubquery right_query))
      join_sql_expr]
  .ok (createSubQuery join_spec "root")

/-- Modelled from the spec: the call-surface merge method of the
pandas api frame (outside src; only PandasApiMergeFunction is under
src).  Per the repository tests it validates the raw arguments and
rejects merging a frame with itself before the merge function, and
hence any plan or program, is built; the remaining surface checks
(argument types, index joins, sort, indicator, validate) are out of
scope here. -/
def mergeCallSurface (base other : Frame) (onArg left_on right_on : Option KeysArg)
    (how : String) (suffixes : String × String) : Except MergeError MergeSpec :=
  if base.fid = other.fid then .error .sameFrameUnsupported
  else .ok ⟨base, other, onArg, left_on, right_on, how, suffixes⟩

/-- The output-schema names of a spec, empty when schema computation
fails. -/
def schemaNames (sp : MergeSpec) : List String :=
  match calculateColumns sp with
  | .ok cols => cols.map TdsColumn.name
  | .error _ => []

/-- The select-list output names of a plan node. -/
def selectAliases : SqlNode → List String
  | .querySpec items _ _ => items.map SelectItem.outName
  | .opaqueQuery _ cols => cols
  | _ => []

/-- The select-list output names of the emitted plan of a spec, empty
when to_sql fails. -/
def sqlOutputNames (sp : MergeSpec) : List String :=
  match toSql sp with
  | .ok q => selectAliases q
  | .error _ => []

/-- Modelled from the spec: the final column names of the program
to_pure emits.  The secondary-language join default keeps all columns
from both sides, and the emitted program contains no rename and no
project, so the final names are the two column lists concatenated
unchanged. -/
def pureOutputNames (sp : MergeSpec) : List String :=
  sp.base.cols.map TdsColumn.name ++ sp.other.cols.map TdsColumn.name

/-- The join predicate as the spec words it (section 4.3): the literal
true predicate for an empty pair list, otherwise the left-to-right
conjunction of the per-pair equalities. -/
def specCondition : List (String × String) → JoinPred
  | [] => .litTrue
  | p :: rest =>
    rest.foldl (fun e q => JoinPred.conj e (.eqCols "left" q.1 "right" q.2))
      (.eqCols "left" p.1 "right" p.2)

/-- The output schema as the spec words it (section 4.4): with
same_name_keys the set of key names paired with themselves and overlap
the shared names minus same_name_keys, every base column is renamed
with the left suffix exactly when its name is in overlap, and every
other-frame column whose name is not a same-named key is renamed with
the right suffix exactly when its name is in overlap; base order first,
other-frame order second. -/
def specOutputSchema (sp : MergeSpec) (key_pairs : List (String × String)) : List TdsColumn :=
  let same_name_keys : Finset String :=
    (key_pairs.filterMap (fun p => if p.1 = p.2 then some p.1 else none)).toFinset
  let overlap : Finset String :=
    ((sp.base.cols.map TdsColumn.name).toFinset ∩ (sp.other.cols.map TdsColumn.name).toFinset)
      \ same_name_keys
  (sp.base.cols.map (fun c =>
      if c.name ∈ overlap then TdsColumn.mk (c.name ++ sp.suffixes.1) c.ctype else c))
  ++ ((sp.other.cols.filter (fun c => decide (c.name ∉ same_name_keys))).map (fun c =>
      if c.name ∈ overlap then TdsColumn.mk (c.name ++ sp.suffixes.2) c.ctype else c))

section Fixtures

def colInt (n : String) : TdsColumn := ⟨n, "Integer"⟩
def colStr (n : String) : TdsColumn := ⟨n, "String"⟩
def colFlt (n : String) : TdsColumn := ⟨n, "Float"⟩

/-- The frame of the test suite: test_schema.test_table with columns
col1..col5. -/
def frameT1 : Frame :=
  ⟨0, [colInt "col1", colStr "col2", colFlt "col3", colFlt "col4", colFlt "col5"],
   "#Table(test_schema.test_table)#"⟩

/-- test_schema.test_table_2 with columns col1, pol2, pol3. -/
def frameT2 : Frame :=
  ⟨1, [colInt "col1", colStr "pol2", colFlt "pol3"], "#Table(test_schema.test_table_2)#"⟩

/-- test_schema.test_table_3, same columns as frameT2. -/
def frameT3 : Frame :=
  ⟨2, [colInt "col1", colStr "pol2", colFlt "pol3"], "#Table(test_schema.test_table_3)#"⟩

/-- A frame sharing no column name with frameT1. -/
def frameDisj : Frame :=
  ⟨3, [colInt "pol1", colStr "pol2", colFlt "pol3"], "#Table(test_schema.test_table_d)#"⟩

/-- The merge of the repository test test_merge_on_parameter: inner
merge of test_table with test_table_2 on the same-named key col1. -/
def mergeOnCol1 : MergeSpec :=
  ⟨frameT1, frameT2, some (.one "col1"), none, none, "inner", ("_x", "_y")⟩

/-- A merge with no explicit keys over frames sharing no column name
(the no-resolution scenario of test_merge_on_validation_errors). -/
def mergeNoKeys : MergeSpec :=
  ⟨frameT1, frameDisj, none, none, none, "inner", ("_x", "_y")⟩

/-- The full-outer merge of the repository tests: two same-named keys
and one overlapping non-key column, custom suffixes. -/
def mergeTwoKeys : MergeSpec :=
  ⟨frameT2, frameT3, some (.many ["col1", "pol2"]), none, none, "outer", ("_left", "_right")⟩

/-- left_on and right_on supplied as empty lists over frames sharing
the column name col1. -/
def mergeEmptyExplicit : MergeSpec :=
  ⟨frameT1, frameT2, none, some (.many []), some (.many []), "inner", ("_x", "_y")⟩

/-- A merge whose how value is not a recognized join-kind spelling. -/
def mergeCross : MergeSpec :=
  ⟨frameT1, frameT2, some (.one "col1"), none, none, "cross", ("_x", "_y")⟩

end Fixtures

/-! Helper lemmas bridging the source-shaped definitions and the
spec-shaped ones. -/

theorem foldl_conditionStep (t : List (String × String)) (e : JoinPred) :
    t.foldl conditionStep (some e)
      = some (t.foldl (fun a q => JoinPred.conj a (.eqCols "left" q.1 "right" q.2)) e) := by
  induction t generalizing e with
  | nil => rfl
  | cons p t ih => simp [conditionStep, List.foldl_cons, ih]

theorem conditionOfPairs_eq_spec (pairs : List (String × String)) :
    conditionOfPairs pairs = specCondition pairs := by
  cases pairs with
  | nil => rfl
  | cons p t =>
    simp only [conditionOfPairs, List.isEmpty_cons, Bool.false_eq_true, if_false,
      List.foldl_cons, specCondition]
    rw [show conditionStep none p = some (.eqCols "left" p.1 "right" p.2) from rfl,
      foldl_conditionStep]

theorem overlappingName_iff (sp : MergeSpec) (ps : List (String × String)) (n : String) :
    overlappingName sp ps n = true ↔
      n ∈ (((sp.base.cols.map TdsColumn.name).toFinset ∩ (sp.other.cols.map TdsColumn.name).toFinset)
            \ (ps.filterMap (fun p => if p.1 = p.2 then some p.1 else none)).toFinset) := by
  simp [overlappingName, sameNameKeys, Finset.mem_sdiff, Finset.mem_inter, List.mem_toFinset,
    List.contains, and_assoc]

theorem any_sameKey_eq (ps : List (String × String)) (n : String) :
    ps.any (fun p => n == p.1 && p.1 == p.2) = (sameNameKeys ps).contains n := by
  rw [Bool.eq_iff_iff]
  simp only [List.any_eq_true, Bool.and_eq_true, beq_iff_eq, sameNameKeys, List.contains,
    List.elem_eq_mem, decide_eq_true_iff, List.mem_filterMap]
  constructor
  · rintro ⟨p, hp, h1, h2⟩
    exact ⟨p, hp, by rw [if_pos h2, ← h1]⟩
  · rintro ⟨p, hp, h⟩
    by_cases hpq : p.1 = p.2
    · simp only [if_pos hpq, Option.some.injEq] at h
      exact ⟨p, hp, h.symm, hpq⟩
    · simp [if_neg hpq] at h

theorem filterMap_skip_eq {α β : Type} (p q : α → Bool) (f g : α → β) (l : List α) :
    l.filterMap (fun a => if p a then none else if q a then some (f a) else some (g a))
      = (l.filter (fun a => !(p a))).map (fun a => if q a then f a else g a) := by
  induction l with
  | nil => rfl
  | cons a t ih =>
    by_cases hp : p a
    · simp [List.filterMap_cons, List.filter_cons, hp, ih]
    · by_cases hq : q a <;>
        simp [List.filterMap_cons, List.filter_cons, hp, hq, ih]

theorem mergedColumns_eq_spec (sp : MergeSpec) (ps : List (String × String)) :
    mergedColumns sp ps = specOutputSchema sp ps := by
  simp only [mergedColumns, specOutputSchema]
  congr 1
  · apply List.map_congr_left
    intro c _
    by_cases h : overlappingName sp ps c.name
    · rw [if_pos h, if_pos ((overlappingName_iff sp ps c.name).mp h)]
    · rw [if_neg h, if_neg (fun hm => h ((overlappingName_iff sp ps c.name).mpr hm))]
  · rw [filterMap_skip_eq]
    have hfilter :
        sp.other.cols.filter (fun c => !(ps.any (fun p => c.name == p.1 && p.1 == p.2)))
          = sp.other.cols.filter (fun c =>
              decide (c.name ∉
                (ps.filterMap (fun p => if p.1 = p.2 then some p.1 else none)).toFinset)) := by
      apply List.filter_congr
      intro c _
      rw [any_sameKey_eq]
      rw [Bool.eq_iff_iff]
      simp [sameNameKeys, List.contains, List.mem_toFinset]
    rw [hfilter]
    apply List.map_congr_left
    intro c _
    by_cases h : overlappingName sp ps c.name
    · rw [if_pos h, if_pos ((overlappingName_iff sp ps c.name).mp h)]
    · rw [if_neg h, if_neg (fun hm => h ((overlappingName_iff sp ps c.name).mpr hm))]

theorem buildCondition_ok (sp : MergeSpec) (ps : List (String × String))
    (hd : deriveKeyPairs sp = .ok ps) : buildCondition sp = .ok (conditionOfPairs ps) := by
  unfold buildCondition
  rw [hd]
  rfl

theorem calculateColumns_eq (sp : MergeSpec) (ps : List (String × String))
    (hd : deriveKeyPairs sp = .ok ps) :
    calculateColumns sp =
      (if ((mergedColumns sp ps).map TdsColumn.name).length
          != ((mergedColumns sp ps).map TdsColumn.name).dedup.length
       then .error .duplicateColumn
       else .ok (mergedColumns sp ps)) := by
  unfold calculateColumns
  rw [hd]
  rfl

theorem length_eq_dedup_iff_nodup (l : List String) :
    l.length = l.dedup.length ↔ l.Nodup := by
  constructor
  · intro h
    rw [← List.dedup_eq_self]
    exact (List.dedup_sublist l).eq_of_length h.symm
  · intro h
    rw [List.dedup_eq_self.mpr h]

theorem selectItems_names_eq (sp : MergeSpec) (ps : List (String × String)) :
    (mergeSelectItems sp ps).map SelectItem.outName = (mergedColumns sp ps).map TdsColumn.name := by
  simp only [mergeSelectItems, mergedColumns]
  rw [List.map_append, List.map_append]
  congr 1
  · rw [List.map_map, List.map_map]
    apply List.map_congr_left
    intro c _
    by_cases h : overlappingName sp ps c.name <;> simp [h, Function.comp]
  · rw [List.map_filterMap, List.map_filterMap]
    congr 1
    funext c
    rw [any_sameKey_eq]
    by_cases h1 : c.name ∈ sameNameKeys ps <;>
      by_cases h2 : overlappingName sp ps c.name <;>
        simp [h1, h2, List.contains]

theorem toSql_eq (sp : MergeSpec) (ps : List (String × String)) (cols : List TdsColumn)
    (jt : JoinType) (hd : deriveKeyPairs sp = .ok ps) (hc : calculateColumns sp = .ok cols)
    (hj : joinTypeOfHow sp.how = .ok jt) :
    toSql sp = .ok (createSubQuery
      (SqlNode.querySpec (mergeSelectItems sp ps) false
        [SqlNode.joinNode jt
          (.aliasedRelation (.tableSubquery (frameQuery sp.base)) "left"
            (extractColumnsForSubquery (frameQuery sp.base)))
          (.aliasedRelation (.tableSubquery (frameQuery sp.other)) "right"
            (extractColumnsForSubquery (frameQuery sp.other)))
          (predToSqlExpr (conditionOfPairs ps))])
      "root") := by
  unfold toSql
  rw [buildCondition_ok sp ps hd]
  show (Except.ok (conditionOfPairs ps) >>= fun cond => _) = _
  rw [show ∀ (a : JoinPred) (f : JoinPred → Except MergeError SqlNode),
        (Except.ok a >>= f) = f a from fun _ _ => rfl]
  rw [hc]
  show (Except.ok cols >>= fun r => _) = _
  rw [show ∀ (a : List TdsColumn) (f : List TdsColumn → Except MergeError SqlNode),
        (Except.ok a >>= f) = f a from fun _ _ => rfl]
  rw [hd]
  show (Except.ok ps >>= fun kp => _) = _
  rw [show ∀ (a : List (String × String)) (f : List (String × String) → Except MergeError SqlNode),
        (Except.ok a >>= f) = f a from fun _ _ => rfl]
  rw [hj]
  rfl

theorem calculateColumns_ok_elim (sp : MergeSpec) (ps : List (String × String))
    (cols : List TdsColumn) (hd : deriveKeyPairs sp = .ok ps)
    (hc : calculateColumns sp = .ok cols) :
    cols = mergedColumns sp ps ∧ (cols.map TdsColumn.name).Nodup := by
  rw [calculateColumns_eq sp ps hd] at hc
  by_cases h : ((mergedColumns sp ps).map TdsColumn.name).length
      = ((mergedColumns sp ps).map TdsColumn.name).dedup.length
  · rw [if_neg (by simp [bne_iff_ne, h])] at hc
    injection hc with h2
    refine ⟨h2.symm, ?_⟩
    rw [← h2]
    exact (length_eq_dedup_iff_nodup _).mp h
  · rw [if_pos (by simp only [bne_iff_ne, ne_eq, decide_eq_true_iff]; exact h)] at hc
    exact (Except.noConfusion hc)

theorem calculateColumns_dup_error (sp : MergeSpec) (ps : List (String × String))
    (hd : deriveKeyPairs sp = .ok ps)
    (h : ¬ ((mergedColumns sp ps).map TdsColumn.name).Nodup) :
    calculateColumns sp = .error .duplicateColumn := by
  rw [calculateColumns_eq sp ps hd]
  rw [if_pos ?_]
  simp only [bne_iff_ne, ne_eq, decide_eq_true_iff]
  intro hlen
  exact h ((length_eq_dedup_iff_nodup _).mp hlen)

theorem sqlOutputNames_eq (sp : MergeSpec) (ps : List (String × String))
    (cols : List TdsColumn) (jt : JoinType) (hd : deriveKeyPairs sp = .ok ps)
    (hc : calculateColumns sp = .ok cols) (hj : joinTypeOfHow sp.how = .ok jt) :
    sqlOutputNames sp = cols.map TdsColumn.name := by
  have hts := toSql_eq sp ps cols jt hd hc hj
  have hcols := (calculateColumns_ok_elim sp ps cols hd hc).1
  unfold sqlOutputNames
  rw [hts]
  simp only [createSubQuery, selectAliases, extractColumnsForSubquery, List.map_map]
  have hcomp : (SelectItem.outName ∘ (fun c => SelectItem.mk c (SqlExpr.colRef ["root", c]))
      ∘ SelectItem.outName) = SelectItem.outName := rfl
  rw [hcomp, selectItems_names_eq, ← hcols]

theorem plan_names_agree_with_schema (sp : MergeSpec) (ps : List (String × String))
    (cols : List TdsColumn) (jt : JoinType) (hd : deriveKeyPairs sp = .ok ps)
    (hc : calculateColumns sp = .ok cols) (hj : joinTypeOfHow sp.how = .ok jt) :
    sqlOutputNames sp = schemaNames sp := by
  unfold schemaNames
  rw [hc]
  exact sqlOutputNames_eq sp ps cols jt hd hc hj

theorem joinTypeOfHow_unrecognized (s : String)
    (h : pyLower s ∉ (["inner", "left", "left_outer", "right", "right_outer",
      "outer", "full", "full_outer"] : List String)) :
    joinTypeOfHow s = .error (.unsupportedJoinKind s) := by
  simp only [List.mem_cons, List.mem_singleton, not_or] at h
  obtain ⟨h1, h2, h3, h4, h5, h6, h7, h8⟩ := h
  simp [joinTypeOfHow, h1, h2, h3, h4, h5, h6, h7, h8]

theorem pureJoinKind_unrecognized (s : String)
    (h : pyLower s ∉ (["inner", "left", "left_outer", "right", "right_outer",
      "outer", "full", "full_outer"] : List String)) :
    pureJoinKind s = "FULL" := by
  simp only [List.mem_cons, List.mem_singleton, not_or] at h
  obtain ⟨h1, h2, h3, h4, h5, h6, h7, h8⟩ := h
  simp [pureJoinKind, h1, h2, h3, h4, h5, h6]

/-! Claim theorems. -/

/-- C1: counter to the claim, at a merge whose resolved key pairs
contain the same-named pair (col1, col1), the program to_pure emits is
a bare merge call on the two frame programs; it contains no rename of
the right-side key column to a temporary name and no trailing project
(the lambda compares the plain names directly).  The repository tests
expect the rename to col1__right_key_tmp and a trailing project of the
seven schema columns. -/
theorem to_pure_emits_plain_merge_without_rename_or_project :
    toPure mergeOnCol1 =
      .ok ("#Table(test_schema.test_table)#->merge(#Table(test_schema.test_table_2)#, " ++
           "JoinKind.INNER, \x7bl, r | $left.col1 == $right.col1\x7d)") ∧
    (∀ s, toPure mergeOnCol1 = .ok s → ¬ List.IsInfix "->rename(".data s.data) ∧
    (∀ s, toPure mergeOnCol1 = .ok s → ¬ List.IsInfix "->project(".data s.data) := by
  refine ⟨by decide, ?_, ?_⟩ <;>
    · intro s hs
      have : s = ("#Table(test_schema.test_table)#->merge(#Table(test_schema.test_table_2)#, " ++
           "JoinKind.INNER, \x7bl, r | $left.col1 == $right.col1\x7d)") := by
        have h0 : toPure mergeOnCol1 =
            .ok ("#Table(test_schema.test_table)#->merge(#Table(test_schema.test_table_2)#, " ++
             "JoinKind.INNER, \x7bl, r | $left.col1 == $right.col1\x7d)") := by decide
        rw [h0] at hs
        exact (Except.ok.injEq _ _).mp hs.symm
      rw [this]
      decide

/-- C2: counter to the claim, at the same-named-key merge of the test
suite the output-schema names agree with the select-list names of the
emitted plan, but the final column names of the emitted program (which
keeps all columns from both sides, having no trailing projection)
differ: the right-side key column col1 survives. -/
theorem schema_plan_agree_but_program_names_differ :
    schemaNames mergeOnCol1 = ["col1", "col2", "col3", "col4", "col5", "pol2", "pol3"] ∧
    sqlOutputNames mergeOnCol1 = ["col1", "col2", "col3", "col4", "col5", "pol2", "pol3"] ∧
    pureOutputNames mergeOnCol1
      = ["col1", "col2", "col3", "col4", "col5", "col1", "pol2", "pol3"] ∧
    pureOutputNames mergeOnCol1 ≠ schemaNames mergeOnCol1 := by
  refine ⟨by decide, by decide, by decide, by decide⟩

/-- C3: counter to the error half of the claim, key resolution with no
explicit keys and an empty column-name intersection returns the empty
key-pair list without raising; validation passes and the condition
builder degrades to the literal-true predicate (a cross join).  The
repository tests and the spec require a no-keys-resolved failure
here. -/
theorem empty_intersection_resolves_without_error :
    deriveKeyPairs mergeNoKeys = .ok [] ∧
    validateSpec mergeNoKeys = .ok true ∧
    buildCondition mergeNoKeys = .ok .litTrue ∧
    calculateColumns mergeNoKeys = .ok (frameT1.cols ++ frameDisj.cols) := by
  refine ⟨by decide, by decide, by decide, by decide⟩

/-- C4: a merge spec whose two frames are the same object (equal
identity tokens) is rejected by the call surface with the
same-frame-unsupported error, before any spec, plan or program is
built. -/
theorem same_frame_merge_rejected (base other : Frame) (onA lOn rOn : Option KeysArg)
    (how : String) (sfx : String × String) (h : base.fid = other.fid) :
    mergeCallSurface base other onA lOn rOn how sfx = .error .sameFrameUnsupported := by
  unfold mergeCallSurface
  rw [if_pos h]

theorem same_frame_merge_rejected_witness :
    mergeCallSurface frameT1 frameT1 none none none "inner" ("_x", "_y")
      = .error .sameFrameUnsupported :=
  same_frame_merge_rejected frameT1 frameT1 none none none "inner" ("_x", "_y") rfl

/-- C5: for every merge spec whose key resolution and schema
computation succeed, the output schema equals the spec-worded
composition: base columns in base order with the left suffix exactly
on overlap names, then other-frame columns minus same-named keys in
other-frame order with the right suffix exactly on overlap names,
where overlap is the shared names minus the same-named key names. -/
theorem output_schema_is_spec_composition (sp : MergeSpec) (ps : List (String × String))
    (cols : List TdsColumn) (hd : deriveKeyPairs sp = .ok ps)
    (hc : calculateColumns sp = .ok cols) :
    cols = specOutputSchema sp ps := by
  rw [(calculateColumns_ok_elim sp ps cols hd hc).1, mergedColumns_eq_spec]

theorem output_schema_is_spec_composition_witness :
    ([⟨"col1", "Integer"⟩, ⟨"pol2", "String"⟩, ⟨"pol3_left", "Float"⟩,
      ⟨"pol3_right", "Float"⟩] : List TdsColumn)
      = specOutputSchema mergeTwoKeys [("col1", "col1"), ("pol2", "pol2")] :=
  output_schema_is_spec_composition mergeTwoKeys [("col1", "col1"), ("pol2", "pol2")]
    [⟨"col1", "Integer"⟩, ⟨"pol2", "String"⟩, ⟨"pol3_left", "Float"⟩, ⟨"pol3_right", "Float"⟩]
    (by decide) (by decide)

/-- C6: for every merge spec whose key resolution succeeds, schema
computation fails with the duplicate-column error when the composed
names contain a duplicate, and whenever it returns a schema its names
are pairwise distinct. -/
theorem output_schema_names_pairwise_distinct (sp : MergeSpec) (ps : List (String × String))
    (hd : deriveKeyPairs sp = .ok ps) :
    (∀ cols, calculateColumns sp = .ok cols → (cols.map TdsColumn.name).Nodup) ∧
    (¬ ((specOutputSchema sp ps).map TdsColumn.name).Nodup →
      calculateColumns sp = .error .duplicateColumn) := by
  constructor
  · intro cols hc
    exact (calculateColumns_ok_elim sp ps cols hd hc).2
  · intro hdup
    apply calculateColumns_dup_error sp ps hd
    rw [mergedColumns_eq_spec]
    exact hdup

theorem output_schema_names_pairwise_distinct_witness :
    (([⟨"col1", "Integer"⟩, ⟨"pol2", "String"⟩, ⟨"pol3_left", "Float"⟩,
       ⟨"pol3_right", "Float"⟩] : List TdsColumn).map TdsColumn.name).Nodup :=
  (output_schema_names_pairwise_distinct mergeTwoKeys [("col1", "col1"), ("pol2", "pol2")]
    (by decide)).1
    [⟨"col1", "Integer"⟩, ⟨"pol2", "String"⟩, ⟨"pol3_left", "Float"⟩, ⟨"pol3_right", "Float"⟩]
    (by decide)

/-- C7 counterexample: with left_on and right_on both supplied as
empty lists over frames sharing col1, the claim requires the
positional zip (the empty pair list), but key resolution falls through
to intersection inference and returns the pair (col1, col1). -/
theorem key_resolution_empty_lists_counterexample :
    mergeEmptyExplicit.left_on.isSome = true ∧
    mergeEmptyExplicit.right_on.isSome = true ∧
    (normalizeKeys mergeEmptyExplicit.left_on).length
      = (normalizeKeys mergeEmptyExplicit.right_on).length ∧
    (∀ k ∈ normalizeKeys mergeEmptyExplicit.left_on,
      k ∈ mergeEmptyExplicit.base.cols.map TdsColumn.name) ∧
    (∀ k ∈ normalizeKeys mergeEmptyExplicit.right_on,
      k ∈ mergeEmptyExplicit.other.cols.map TdsColumn.name) ∧
    deriveKeyPairs mergeEmptyExplicit
      ≠ .ok ((normalizeKeys mergeEmptyExplicit.left_on).zip
             (normalizeKeys mergeEmptyExplicit.right_on)) ∧
    deriveKeyPairs mergeEmptyExplicit = .ok [("col1", "col1")] := by
  refine ⟨by decide, by decide, by decide, by decide, by decide, by decide, by decide⟩

/-- C7 amended: explicit key resolution behaves as claimed, except
that the left_on/right_on branch applies only when at least one of the
two normalizes to a non-empty list; when both normalize to empty
lists (and on is absent) resolution falls through to intersection
inference.  Conflicting keys, the on branch with the first missing key
named, the length check, the left-then-right existence checks and the
positional zip are as claimed. -/
theorem key_resolution_amended (sp : MergeSpec) :
    (sp.onArg.isSome = true → (sp.left_on.isSome || sp.right_on.isSome) = true →
      deriveKeyPairs sp = .error .conflictingKeys) ∧
    (sp.left_on = none → sp.right_on = none → sp.onArg.isSome = true →
      ((normalizeKeys sp.onArg).find? (fun k =>
          !((sp.base.cols.map TdsColumn.name).contains k)
            || !((sp.other.cols.map TdsColumn.name).contains k)) = none →
        deriveKeyPairs sp = .ok ((normalizeKeys sp.onArg).map (fun k => (k, k)))) ∧
      (∀ m, (normalizeKeys sp.onArg).find? (fun k =>
          !((sp.base.cols.map TdsColumn.name).contains k)
            || !((sp.other.cols.map TdsColumn.name).contains k)) = some m →
        deriveKeyPairs sp = .error (.unknownKey m))) ∧
    (sp.onArg = none →
      (normalizeKeys sp.left_on ≠ [] ∨ normalizeKeys sp.right_on ≠ []) →
      ((normalizeKeys sp.left_on).length ≠ (normalizeKeys sp.right_on).length →
        deriveKeyPairs sp = .error .keyLengthMismatch) ∧
      ((normalizeKeys sp.left_on).length = (normalizeKeys sp.right_on).length →
        (∀ m, (normalizeKeys sp.left_on).find? (fun k =>
            !((sp.base.cols.map TdsColumn.name).contains k)) = some m →
          deriveKeyPairs sp = .error (.unknownKey m)) ∧
        ((normalizeKeys sp.left_on).find? (fun k =>
            !((sp.base.cols.map TdsColumn.name).contains k)) = none →
          (∀ m, (normalizeKeys sp.right_on).find? (fun k =>
              !((sp.other.cols.map TdsColumn.name).contains k)) = some m →
            deriveKeyPairs sp = .error (.unknownKey m)) ∧
          ((normalizeKeys sp.right_on).find? (fun k =>
              !((sp.other.cols.map TdsColumn.name).contains k)) = none →
            deriveKeyPairs sp = .ok
              ((normalizeKeys sp.left_on).zip (normalizeKeys sp.right_on)))))) ∧
    (sp.onArg = none → normalizeKeys sp.left_on = [] → normalizeKeys sp.right_on = [] →
      deriveKeyPairs sp = .ok (((sp.base.cols.map TdsColumn.name).filter
        (fun k => (sp.other.cols.map TdsColumn.name).contains k)).map (fun k => (k, k)))) := by
  refine ⟨?_, ?_, ?_, ?_⟩
  · intro h1 h2
    simp only [deriveKeyPairs]
    rw [if_pos (by rw [h1, h2]; rfl)]
  · intro hl hr hon
    simp only [deriveKeyPairs]
    rw [if_neg (by simp [hl, hr]), if_pos hon]
    constructor
    · intro hfind
      rw [hfind]
    · intro m hfind
      rw [hfind]
  · intro hon hne
    simp only [deriveKeyPairs]
    rw [if_neg (by simp [hon]), if_neg (by simp [hon])]
    have hcond : (!(normalizeKeys sp.left_on).isEmpty || !(normalizeKeys sp.right_on).isEmpty)
        = true := by
      rcases hne with h | h
      · cases hk : (normalizeKeys sp.left_on).isEmpty
        · simp
        · exact absurd (List.isEmpty_iff.mp hk) h
      · cases hk : (normalizeKeys sp.right_on).isEmpty
        · simp
        · exact absurd (List.isEmpty_iff.mp hk) h
    rw [if_pos hcond]
    constructor
    · intro hlen
      rw [if_pos (by simp only [bne_iff_ne, ne_eq, decide_eq_true_iff]; exact hlen)]
    · intro hlen
      rw [if_neg (by simp only [bne_iff_ne, ne_eq, decide_eq_true_iff, not_not]; exact hlen)]
      constructor
      · intro m hfind
        rw [hfind]
      · intro hfind
        rw [hfind]
        constructor
        · intro m hfind2
          rw [hfind2]
        · intro hfind2
          rw [hfind2]
  · intro hon hl hr
    simp only [deriveKeyPairs]
    rw [if_neg (by simp [hon]), if_neg (by simp [hon])]
    rw [if_neg (by rw [hl, hr]; decide)]

theorem key_resolution_amended_witness :
    deriveKeyPairs mergeEmptyExplicit = .ok [("col1", "col1")] := by
  have h := (key_resolution_amended mergeEmptyExplicit).2.2.2 rfl rfl rfl
  rw [h]
  decide

theorem except_bind_ok {ε α β : Type} (a : α) (f : α → Except ε β) :
    ((Except.ok a : Except ε α) >>= f) = f a := rfl

theorem except_bind_error {ε α β : Type} (e : ε) (f : α → Except ε β) :
    ((Except.error e : Except ε α) >>= f) = Except.error e := rfl

/-- C8: join-kind resolution is case-insensitive and total over the
eight recognized spellings, mapping them to INNER, LEFT, RIGHT and
FULL as claimed, and fails with the unsupported-join-kind error
carrying the offending string on every other value. -/
theorem join_kind_resolution_total (s : String) :
    (pyLower s = "inner" → joinTypeOfHow s = .ok .INNER) ∧
    ((pyLower s = "left" ∨ pyLower s = "left_outer") → joinTypeOfHow s = .ok .LEFT) ∧
    ((pyLower s = "right" ∨ pyLower s = "right_outer") → joinTypeOfHow s = .ok .RIGHT) ∧
    ((pyLower s = "outer" ∨ pyLower s = "full" ∨ pyLower s = "full_outer") →
      joinTypeOfHow s = .ok .FULL) ∧
    (pyLower s ∉ (["inner", "left", "left_outer", "right", "right_outer",
        "outer", "full", "full_outer"] : List String) →
      joinTypeOfHow s = .error (.unsupportedJoinKind s)) := by
  refine ⟨?_, ?_, ?_, ?_, joinTypeOfHow_unrecognized s⟩
  · intro h
    simp [joinTypeOfHow, h]
  · rintro (h | h) <;> simp [joinTypeOfHow, h]
  · rintro (h | h) <;> simp [joinTypeOfHow, h]
  · rintro (h | h | h) <;> simp [joinTypeOfHow, h]

theorem join_kind_resolution_total_witness :
    joinTypeOfHow "Left_Outer" = .ok .LEFT :=
  (join_kind_resolution_total "Left_Outer").2.1 (Or.inr (by decide))

/-- C9: for every merge spec whose key resolution, schema computation
and join-kind resolution succeed, the emitted plan wraps the two frame
query objects as aliased subqueries under the fixed aliases left and
right, joins them with the resolved kind and the key-equality
predicate (literal-true for the empty pair list, otherwise the
left-to-right conjunction of per-pair equalities) as the ON criterion,
and wraps the join-with-select in one further aliased subquery under
the alias root. -/
theorem plan_structure_aliased_join_under_root (sp : MergeSpec) (ps : List (String × String))
    (cols : List TdsColumn) (jt : JoinType) (hd : deriveKeyPairs sp = .ok ps)
    (hc : calculateColumns sp = .ok cols) (hj : joinTypeOfHow sp.how = .ok jt) :
    toSql sp = .ok (createSubQuery
      (SqlNode.querySpec (mergeSelectItems sp ps) false
        [SqlNode.joinNode jt
          (.aliasedRelation (.tableSubquery (frameQuery sp.base)) "left"
            (extractColumnsForSubquery (frameQuery sp.base)))
          (.aliasedRelation (.tableSubquery (frameQuery sp.other)) "right"
            (extractColumnsForSubquery (frameQuery sp.other)))
          (predToSqlExpr (specCondition ps))])
      "root") := by
  rw [toSql_eq sp ps cols jt hd hc hj, conditionOfPairs_eq_spec]

theorem plan_structure_aliased_join_under_root_witness :
    toSql mergeOnCol1 = .ok (createSubQuery
      (SqlNode.querySpec (mergeSelectItems mergeOnCol1 [("col1", "col1")]) false
        [SqlNode.joinNode .INNER
          (.aliasedRelation (.tableSubquery (frameQuery mergeOnCol1.base)) "left"
            (extractColumnsForSubquery (frameQuery mergeOnCol1.base)))
          (.aliasedRelation (.tableSubquery (frameQuery mergeOnCol1.other)) "right"
            (extractColumnsForSubquery (frameQuery mergeOnCol1.other)))
          (predToSqlExpr (specCondition [("col1", "col1")]))])
      "root") :=
  plan_structure_aliased_join_under_root mergeOnCol1 [("col1", "col1")]
    (mergedColumns mergeOnCol1 [("col1", "col1")]) .INNER (by decide) (by decide) (by decide)

/-- C10: for every merge spec whose key resolution and schema
computation succeed but whose how value lowers to none of the eight
recognized spellings, to_pure renders the program with JoinKind.FULL
and raises no error, while to_sql and validate fail with the
unsupported-join-kind error: the failure occurs only on the plan and
validate paths, never on the program path. -/
theorem unrecognized_how_full_on_pure_path (sp : MergeSpec) (ps : List (String × String))
    (cols : List TdsColumn) (hd : deriveKeyPairs sp = .ok ps)
    (hc : calculateColumns sp = .ok cols)
    (h : pyLower sp.how ∉ (["inner", "left", "left_outer", "right", "right_outer",
      "outer", "full", "full_outer"] : List String)) :
    toPure sp = .ok (sp.base.pureSrc ++ "->merge(" ++ sp.other.pureSrc ++ ", JoinKind." ++ "FULL"
      ++ ", \x7bl, r | " ++ renderPureJoinPred (conditionOfPairs ps) ++ "\x7d)") ∧
    toSql sp = .error (.unsupportedJoinKind sp.how) ∧
    validateSpec sp = .error (.unsupportedJoinKind sp.how) := by
  refine ⟨?_, ?_, ?_⟩
  · simp only [toPure]
    rw [buildCondition_ok sp ps hd, except_bind_ok, pureJoinKind_unrecognized sp.how h]
  · simp only [toSql]
    rw [buildCondition_ok sp ps hd, except_bind_ok, hc, except_bind_ok, hd, except_bind_ok,
      joinTypeOfHow_unrecognized sp.how h, except_bind_error]
  · simp only [validateSpec]
    rw [hd, except_bind_ok, joinTypeOfHow_unrecognized sp.how h, except_bind_error]

theorem unrecognized_how_full_on_pure_path_witness :
    toPure mergeCross = .ok (mergeCross.base.pureSrc ++ "->merge(" ++ mergeCross.other.pureSrc
      ++ ", JoinKind." ++ "FULL" ++ ", \x7bl, r | "
      ++ renderPureJoinPred (conditionOfPairs [("col1", "col1")]) ++ "\x7d)") ∧
    toSql mergeCross = .error (.unsupportedJoinKind "cross") ∧
    validateSpec mergeCross = .error (.unsupportedJoinKind "cross") :=
  unrecognized_how_full_on_pure_path mergeCross [("col1", "col1")]
    (mergedColumns mergeCross [("col1", "col1")]) (by decide) (by decide) (by decide)
